import Mathlib

/-!
The compositing, timestamping and muxing loop of rtmp-stream.

Shallow embedding of `src/rtmp-stream.cpp`.  The program pulls one frame from
each of two capture devices, pastes them side by side into a canvas image,
converts and encodes the canvas, and writes the packet to an FLV/RTMP sink,
once per tick of an endless loop.

Memory is modelled as lists of bytes and a matrix header (`Mat`) addresses a
buffer through an offset and a row stride, as `cv::Mat` does.  Results of
calls into OpenCV, FFmpeg and the operating system that the program only
tests (return codes, device availability, frame contents) are inputs of the
model.
-/

namespace RtmpStream

/-! ## Images -/

/-- Bytes of a pixel buffer (`uint8_t`). -/
abbrev Buf := List Nat

/-- Ways in which a call into OpenCV can fail to return. -/
inductive CvError where
  /-- The region-of-interest constructor found the rectangle outside the matrix
  (`CV_Assert` in `cv::Mat::Mat(const Mat&, const Rect&)` throws `cv::Exception`). -/
  | roiAssertion
  /-- An empty source was copied to a destination of fixed size: `copyTo` calls
  `_dst.release()`, whose `CV_Assert(!fixedSize())` throws `cv::Exception`. -/
  | releaseAssertion
  /-- A byte copy addressed memory outside the buffer it was given. -/
  | outOfBounds
  deriving DecidableEq

/-- The `cv::Rect` of the program: the coordinates it builds are column and row
counts, hence never negative. -/
structure Rect where
  x : Nat
  y : Nat
  width : Nat
  height : Nat
  deriving DecidableEq

/-- The `cv::Rect::contains` test: the pixel coordinate `(px, py)` lies in the rectangle. -/
def Rect.contains (r : Rect) (px py : Nat) : Prop :=
  r.x ≤ px ∧ px < r.x + r.width ∧ r.y ≤ py ∧ py < r.y + r.height

instance (r : Rect) (px py : Nat) : Decidable (r.contains px py) := by
  unfold Rect.contains; infer_instance

/-- Bytes per element of a `CV_8UC3` matrix. -/
def elemSize : Nat := 3

/-- Header of a `cv::Mat` of type `CV_8UC3`: the data pointer is the offset `off`
into the buffer the header refers to, `step` is the distance in bytes between rows. -/
structure Mat where
  rows : Nat
  cols : Nat
  step : Nat
  off : Nat
  deriving DecidableEq

/-- The `image(cv::Rect(...))` of lines 225 and 232, `cv::Mat::operator()(const Rect&)`:
a header on the same buffer for the rectangle.  OpenCV asserts
`roi.x + roi.width <= m.cols && roi.y + roi.height <= m.rows` (the sign checks hold
for naturals) and throws when the rectangle does not fit. -/
def Mat.roi (m : Mat) (r : Rect) : Except CvError Mat :=
  if r.x + r.width ≤ m.cols ∧ r.y + r.height ≤ m.rows then
    .ok { rows := r.height, cols := r.width, step := m.step,
          off := m.off + r.y * m.step + r.x * elemSize }
  else
    .error .roiAssertion

/-- Byte of channel `c` of the pixel in row `y`, column `x` of the matrix `m` on buffer `buf`. -/
def Mat.byteAt (m : Mat) (buf : Buf) (x y c : Nat) : Nat :=
  buf.getD (m.off + y * m.step + x * elemSize + c) 0

/-- The `memcpy` of `n` bytes from `src` at offset `s` to `dst` at offset `d`, byte by
byte; an access outside either buffer is reported instead of performed. -/
def memcpy (dst : Buf) (d : Nat) (src : Buf) (s : Nat) : Nat → Except CvError Buf
  | 0 => .ok dst
  | n + 1 =>
    if d < dst.length ∧ s < src.length then
      memcpy (dst.set d (src.getD s 0)) (d + 1) src (s + 1) n
    else
      .error .outOfBounds

/-- Row loop of `cv::Mat::copyTo`:
`for (; sz.height--; sptr += step, dptr += dst.step) memcpy(dptr, sptr, len)`. -/
def copyRows (sbuf : Buf) (sstep dstep len : Nat) :
    Nat → Nat → Nat → Buf → Except CvError Buf
  | 0, _, _, dbuf => .ok dbuf
  | n + 1, sptr, dptr, dbuf =>
    match memcpy dbuf dptr sbuf sptr len with
    | .ok dbuf1 => copyRows sbuf sstep dstep len n (sptr + sstep) (dptr + dstep) dbuf1
    | .error e => .error e

/-- The `cv::Mat::empty` test for a matrix with a data pointer: it has no element. -/
def Mat.empty (m : Mat) : Prop :=
  m.rows = 0 ∨ m.cols = 0

instance (m : Mat) : Decidable m.empty := by
  unfold Mat.empty; infer_instance

/-- The `src.copyTo(dst)` of lines 225 and 232.  The destination is the temporary
`image(cv::Rect(...))`, which binds to the output argument as a matrix of fixed size
and type, and has the size and type of the source.  OpenCV runs
`if (empty()) { _dst.release(); return; }` first, and releasing a destination of fixed
size fails `CV_Assert(!fixedSize())`; for a source with elements `_dst.create` finds
the size it wants (no reallocation) and every row of `src` is copied to the row of
`dst`. -/
def Mat.copyTo (src : Mat) (sbuf : Buf) (dst : Mat) (dbuf : Buf) : Except CvError Buf :=
  if src.empty then
    .error .releaseAssertion
  else
    copyRows sbuf src.step dst.step (src.cols * elemSize) src.rows src.off dst.off dbuf

/-- A frame pulled from a capture device (`cv::Mat3b`): a continuous matrix that owns
its pixel bytes. -/
structure Frame where
  rows : Nat
  cols : Nat
  data : Buf
  deriving DecidableEq

/-- Header of a frame: rows are adjacent and the data starts at the buffer start. -/
def Frame.mat (f : Frame) : Mat :=
  { rows := f.rows, cols := f.cols, step := f.cols * elemSize, off := 0 }

/-- A frame holds exactly the bytes of its pixels. -/
def Frame.WellFormed (f : Frame) : Prop :=
  f.data.length = f.rows * f.cols * elemSize

instance (f : Frame) : Decidable f.WellFormed := by
  unfold Frame.WellFormed; infer_instance

/-- The `cv::Mat::empty` test on a frame: a failed read leaves a frame without rows or
columns. -/
def Frame.empty (f : Frame) : Prop :=
  f.mat.empty

instance (f : Frame) : Decidable f.empty := by
  unfold Frame.empty; infer_instance

/-- Byte of channel `c` of the pixel in row `y`, column `x` of a frame. -/
def Frame.byteAt (f : Frame) (x y c : Nat) : Nat :=
  f.mat.byteAt f.data x y c

/-- Size of the canvas buffer, line 173: `imgbuf(height * width * 3 + 16)`. -/
def imgbufSize (width height : Nat) : Nat :=
  height * width * 3 + 16

/-- The canvas header of line 174:
`cv::Mat image(height, width, CV_8UC3, imgbuf.data(), width * 3)`. -/
def canvasMat (width height : Nat) : Mat :=
  { rows := height, cols := width, step := width * 3, off := 0 }

/-- Slot of source 1, line 225: `cv::Rect(0, 0, frame_image_1.cols, frame_image_1.rows)`. -/
def slotRect1 (f1 : Frame) : Rect :=
  { x := 0, y := 0, width := f1.cols, height := f1.rows }

/-- Slot of source 2, line 232:
`cv::Rect(frame_image_1.size().width, 0, frame_image_2.cols, frame_image_2.rows)`. -/
def slotRect2 (f1 f2 : Frame) : Rect :=
  { x := f1.cols, y := 0, width := f2.cols, height := f2.rows }

/-- The composite step of one tick, lines 225 and 232: each frame is copied into the
region of interest of its slot. -/
def composite (image : Mat) (imgbuf : Buf) (f1 f2 : Frame) : Except CvError Buf :=
  match image.roi (slotRect1 f1) with
  | .error e => .error e
  | .ok roi1 =>
    match f1.mat.copyTo f1.data roi1 imgbuf with
    | .error e => .error e
    | .ok imgbuf1 =>
      match image.roi (slotRect2 f1 f2) with
      | .error e => .error e
      | .ok roi2 => f2.mat.copyTo f2.data roi2 imgbuf1

/-! ## Encoder configuration and timestamps -/

/-- The `AVRational` of FFmpeg: numerator and denominator (`int` fields). -/
structure AVRational where
  num : Int
  den : Int
  deriving DecidableEq

/-- The `av_inv_q` of FFmpeg: `{q.den, q.num}`. -/
def av_inv_q (q : AVRational) : AVRational :=
  { num := q.den, den := q.num }

/-- Codec identifiers the program meets. -/
inductive AVCodecID where
  | AV_CODEC_ID_NONE
  | AV_CODEC_ID_H264
  deriving DecidableEq

/-- Media types the program meets. -/
inductive AVMediaType where
  | AVMEDIA_TYPE_UNKNOWN
  | AVMEDIA_TYPE_VIDEO
  deriving DecidableEq

/-- Pixel formats the program meets. -/
inductive AVPixelFormat where
  | AV_PIX_FMT_NONE
  | AV_PIX_FMT_YUV420P
  | AV_PIX_FMT_BGR24
  deriving DecidableEq

/-- Container flag `AVFMT_NOFILE` of `libavformat/avformat.h`. -/
def AVFMT_NOFILE : Nat := 0x0001

/-- Container flag `AVFMT_GLOBALHEADER` of `libavformat/avformat.h`. -/
def AVFMT_GLOBALHEADER : Nat := 0x0040

/-- Codec flag `AV_CODEC_FLAG_GLOBAL_HEADER` of `libavcodec/avcodec.h`, `1 << 22`. -/
def AV_CODEC_FLAG_GLOBAL_HEADER : Nat := 2 ^ 22

/-- The fields of `AVCodecContext` that `set_codec_params` touches; `flags` is the bit
pattern of the C `int`. -/
structure AVCodecContext where
  codec_tag : Nat
  codec_id : AVCodecID
  codec_type : AVMediaType
  width : Int
  height : Int
  gop_size : Int
  pix_fmt : AVPixelFormat
  framerate : AVRational
  time_base : AVRational
  bit_rate : Int
  flags : Nat
  deriving DecidableEq

/-- The `set_codec_params` of lines 71-89; `oformatFlags` is `fctx->oformat->flags`.
The `double` width and height hold the integers `main` passes. -/
def set_codec_params (oformatFlags : Nat) (codec_ctx : AVCodecContext)
    (width height fps bitrate : Int) : AVCodecContext :=
  let dst_fps : AVRational := { num := fps, den := 1 }
  let ctx : AVCodecContext :=
    { codec_ctx with
      codec_tag := 0
      codec_id := .AV_CODEC_ID_H264
      codec_type := .AVMEDIA_TYPE_VIDEO
      width := width
      height := height
      gop_size := 12
      pix_fmt := .AV_PIX_FMT_YUV420P
      framerate := dst_fps
      time_base := av_inv_q dst_fps
      bit_rate := bitrate }
  if (oformatFlags &&& AVFMT_GLOBALHEADER) ≠ 0 then
    { ctx with flags := ctx.flags ||| AV_CODEC_FLAG_GLOBAL_HEADER }
  else
    ctx

/-- Least `int64_t`; also `AV_NOPTS_VALUE`. -/
def INT64_MIN : Int := -(2 ^ 63)

/-- Greatest `int64_t`. -/
def INT64_MAX : Int := 2 ^ 63 - 1

/-- Value of an integer stored in an `int64_t` (two-complement wrap-around). -/
def wrapInt64 (x : Int) : Int :=
  (x + 2 ^ 63) % 2 ^ 64 - 2 ^ 63

/-- The `av_rescale_rnd(a, b, c, AV_ROUND_NEAR_INF)` of FFmpeg for results that fit
64 bits: `INT64_MIN` on an invalid divisor or multiplier, else `a * b / c` rounded to
nearest, halves away from zero (`r = c / 2; (a * b + r) / c`, with the sign of a
negative `a` put back on the result). -/
def av_rescale_rnd_near_inf (a b c : Int) : Int :=
  if c ≤ 0 ∨ b < 0 then INT64_MIN
  else if a < 0 then -(Int.tdiv ((-a) * b + Int.tdiv c 2) c)
  else Int.tdiv (a * b + Int.tdiv c 2) c

/-- The `av_rescale_q(a, bq, cq)` of FFmpeg:
`b = bq.num * cq.den; c = cq.num * bq.den; av_rescale_rnd(a, b, c, AV_ROUND_NEAR_INF)`. -/
def av_rescale_q (a : Int) (bq cq : AVRational) : Int :=
  av_rescale_rnd_near_inf a (bq.num * cq.den) (cq.num * bq.den)

/-- Line 258: `frame->pts += av_rescale_q(1, out_codec_ctx->time_base, out_stream->time_base)`. -/
def advancePts (pts : Int) (codecTimeBase streamTimeBase : AVRational) : Int :=
  wrapInt64 (pts + av_rescale_q 1 codecTimeBase streamTimeBase)

/-- Argument of the `usleep` of line 260: `1000000/fps` in `int` arithmetic. -/
def sleepMicros (fps : Int) : Int :=
  Int.tdiv 1000000 fps

/-! ## The program as a trace of calls -/

/-- Messages the program prints before `exit(1)`. -/
inductive Msg where
  | deviceOpenFailed
  | allocContextFailed
  | ioOpenFailed
  | streamParamsFailed
  | encoderOpenFailed
  | scalerFailed
  | headerFailed
  | sendFrameFailed
  | receivePacketFailed
  deriving DecidableEq

/-- Calls of the program that an observer of the sink, the encoder and the clock sees. -/
inductive Event where
  /-- A `cv::VideoCapture cam(video_url)` for source 1 or 2. -/
  | captureOpen (source : Nat)
  /-- The call `avformat_alloc_output_context2`. -/
  | allocOutputContext
  /-- The call `avio_open2`. -/
  | ioOpen
  /-- The call `avformat_new_stream`: the stream is created. -/
  | newStream
  /-- The call `avcodec_parameters_from_context(stream->codecpar, codec_ctx)`. -/
  | parametersFromContext
  /-- The call `avcodec_open2`. -/
  | encoderOpen
  /-- The call `sws_getContext`. -/
  | getScaler
  /-- The call `avformat_write_header`. -/
  | writeHeader
  /-- The call `sws_scale` on the canvas. -/
  | swsScale
  /-- The call `avcodec_send_frame` of a frame with the given `pts`. -/
  | sendFrame (pts : Int)
  /-- The call `avcodec_receive_packet`. -/
  | receivePacket
  /-- The call `av_interleaved_write_frame`: a packet is handed to the sink. -/
  | writePacket
  /-- The call `usleep` with the given argument. -/
  | usleep (micros : Int)
  /-- A line on standard output. -/
  | print (m : Msg)
  deriving DecidableEq

/-- Ways the process ends. -/
inductive Termination where
  /-- The call `exit(code)`. -/
  | exit (code : Nat)
  /-- A `cv::Exception` nobody catches. -/
  | uncaughtException
  /-- An access outside a buffer. -/
  | memoryFault
  /-- An integer division by zero. -/
  | divideByZero
  deriving DecidableEq

/-- The `write_frame` of lines 139-160; the arguments are the values returned by
`avcodec_send_frame`, `avcodec_receive_packet` and `av_interleaved_write_frame`, and the
`pts` of the frame.  The result is the calls made and `none` when the function returns. -/
def write_frame (sendRet recvRet _writeRet : Int) (pts : Int) :
    List Event × Option Termination :=
  if sendRet < 0 then
    ([.sendFrame pts, .print .sendFrameFailed], some (.exit 1))
  else if recvRet < 0 then
    ([.sendFrame pts, .receivePacket, .print .receivePacketFailed], some (.exit 1))
  else
    -- the value of `av_interleaved_write_frame` is dropped
    ([.sendFrame pts, .receivePacket, .writePacket], none)

/-- What the outside world hands to one iteration of the loop: the two frames pulled
and the values the FFmpeg calls of `write_frame` return. -/
structure TickInput where
  frame1 : Frame
  frame2 : Frame
  sendRet : Int
  recvRet : Int
  writeRet : Int
  deriving DecidableEq

/-- What the loop carries from one iteration to the next: the canvas bytes and
`frame->pts`. -/
structure LoopState where
  imgbuf : Buf
  pts : Int
  deriving DecidableEq

/-- What is fixed once the loop starts. -/
structure LoopConfig where
  image : Mat
  fps : Int
  codecTimeBase : AVRational
  streamTimeBase : AVRational
  deriving DecidableEq

/-- The values `stream_video` fixes before the loop: the canvas header of line 174, the
frame rate, the time base of the configured encoder and that of the output stream. -/
def loopConfig (width height : Nat) (fps : Int) (codec_ctx : AVCodecContext)
    (streamTimeBase : AVRational) : LoopConfig :=
  { image := canvasMat width height
    fps := fps
    codecTimeBase := codec_ctx.time_base
    streamTimeBase := streamTimeBase }

/-- One iteration of the loop, lines 213-260. -/
def tick (cfg : LoopConfig) (st : LoopState) (t : TickInput) :
    List Event × Except Termination LoopState :=
  match composite cfg.image st.imgbuf t.frame1 t.frame2 with
  | .error .roiAssertion => ([], .error .uncaughtException)
  | .error .releaseAssertion => ([], .error .uncaughtException)
  | .error .outOfBounds => ([], .error .memoryFault)
  | .ok imgbuf =>
    let pts := advancePts st.pts cfg.codecTimeBase cfg.streamTimeBase
    match write_frame t.sendRet t.recvRet t.writeRet pts with
    | (calls, some term) => (.swsScale :: calls, .error term)
    | (calls, none) =>
      if cfg.fps = 0 then
        (.swsScale :: calls, .error .divideByZero)
      else
        (.swsScale :: calls ++ [.usleep (sleepMicros cfg.fps)],
          .ok { imgbuf := imgbuf, pts := pts })

/-- The `do ... while (!end_of_stream)` of lines 211-261 run on the inputs of
successive iterations; `end_of_stream` stays `false`, so `.ok` means the loop is still
running once those inputs are used up. -/
def loop (cfg : LoopConfig) (st : LoopState) :
    List TickInput → List Event × Except Termination LoopState
  | [] => ([], .ok st)
  | t :: ts =>
    match tick cfg st t with
    | (calls, .error term) => (calls, .error term)
    | (calls, .ok st1) =>
      match loop cfg st1 ts with
      | (rest, r) => (calls ++ rest, r)

/-- What the outside world decides during set-up. -/
structure InitEnv where
  /-- Values of `cam.isOpened()` for the two sources. -/
  cam1Opened : Bool
  cam2Opened : Bool
  /-- Value returned by `avformat_alloc_output_context2`. -/
  allocContextRet : Int
  /-- The `fctx->oformat->flags` of the container format. -/
  oformatFlags : Nat
  /-- Value returned by `avio_open2`. -/
  avioOpenRet : Int
  /-- Context as `avcodec_alloc_context3` leaves it. -/
  codecCtx0 : AVCodecContext
  /-- Value returned by `avcodec_parameters_from_context`. -/
  parametersRet : Int
  /-- Value returned by `avcodec_open2`. -/
  encoderOpenRet : Int
  /-- Whether `sws_getContext` returned a context. -/
  scalerAllocated : Bool
  /-- The `frame->pts` as `av_frame_alloc` leaves it. -/
  framePts0 : Int
  /-- Value returned by `avformat_write_header`. -/
  writeHeaderRet : Int
  /-- The `out_stream->time_base` the muxer has chosen once the header is written. -/
  streamTimeBase : AVRational

/-- A step of the program: the calls it made and, when it ended the process, how. -/
abbrev Step := List Event × Option Termination

/-- Sequencing of two steps: the second runs when the first returned. -/
def andThen (a b : Step) : Step :=
  match a with
  | (calls, some term) => (calls, some term)
  | (calls, none) => (calls ++ b.1, b.2)

/-- The `get_stream_device` of lines 34-46 for source 1 or 2; `opened` is the value of
`cam.isOpened()`. -/
def get_stream_device (source : Nat) (opened : Bool) : Step :=
  if !opened then
    ([.captureOpen source, .print .deviceOpenFailed], some (.exit 1))
  else
    ([.captureOpen source], none)

/-- The `initialize_avformat_context` of lines 48-56; `ret` is the value returned by
`avformat_alloc_output_context2`. -/
def initialize_avformat_context (ret : Int) : Step :=
  if ret < 0 then
    ([.allocOutputContext, .print .allocContextFailed], some (.exit 1))
  else
    ([.allocOutputContext], none)

/-- The `initialize_io_context` of lines 58-69; `ret` is the value returned by
`avio_open2`. -/
def initialize_io_context (oformatFlags : Nat) (ret : Int) : Step :=
  if (oformatFlags &&& AVFMT_NOFILE) = 0 then
    if ret < 0 then
      ([.ioOpen, .print .ioOpenFailed], some (.exit 1))
    else
      ([.ioOpen], none)
  else
    ([], none)

/-- The `initialize_codec_stream` of lines 91-112; the arguments are the values returned
by `avcodec_parameters_from_context` and `avcodec_open2`. -/
def initialize_codec_stream (parametersRet encoderOpenRet : Int) : Step :=
  if parametersRet < 0 then
    ([.parametersFromContext, .print .streamParamsFailed], some (.exit 1))
  else if encoderOpenRet < 0 then
    ([.parametersFromContext, .encoderOpen, .print .encoderOpenFailed], some (.exit 1))
  else
    ([.parametersFromContext, .encoderOpen], none)

/-- The `initialize_sample_scaler` of lines 114-124; `allocated` tells whether
`sws_getContext` returned a context. -/
def initialize_sample_scaler (allocated : Bool) : Step :=
  if !allocated then
    ([.getScaler, .print .scalerFailed], some (.exit 1))
  else
    ([.getScaler], none)

/-- The header write of lines 203-208; `ret` is the value returned by
`avformat_write_header`. -/
def write_header (ret : Int) : Step :=
  if ret < 0 then
    ([.writeHeader, .print .headerFailed], some (.exit 1))
  else
    ([.writeHeader], none)

/-- Calls of `stream_video` from line 171 to the test of the header result at line 204,
in program order. -/
def setup (env : InitEnv) : Step :=
  andThen (get_stream_device 1 env.cam1Opened)
  (andThen (get_stream_device 2 env.cam2Opened)
  (andThen (initialize_avformat_context env.allocContextRet)
  (andThen (initialize_io_context env.oformatFlags env.avioOpenRet)
  (andThen ([.newStream], none)
  (andThen (initialize_codec_stream env.parametersRet env.encoderOpenRet)
  (andThen (initialize_sample_scaler env.scalerAllocated)
  (write_header env.writeHeaderRet)))))))

/-- The `stream_video` of lines 162-269 run on the inputs of successive iterations:
set-up, then the loop on a zeroed canvas buffer. -/
def stream_video (width height : Nat) (fps bitrate : Int) (env : InitEnv)
    (ticks : List TickInput) : List Event × Except Termination LoopState :=
  match setup env with
  | (calls, some term) => (calls, .error term)
  | (calls, none) =>
    let ctx := set_codec_params env.oformatFlags env.codecCtx0 width height fps bitrate
    let cfg := loopConfig width height fps ctx env.streamTimeBase
    let st : LoopState :=
      { imgbuf := List.replicate (imgbufSize width height) 0, pts := env.framePts0 }
    match loop cfg st ticks with
    | (rest, r) => (calls ++ rest, r)

/-- Sum of the arguments of the `usleep` calls of a trace, in microseconds. -/
def sleptMicros : List Event → Int
  | [] => 0
  | .usleep us :: rest => us + sleptMicros rest
  | _ :: rest => sleptMicros rest

/-- The set-up gets as far as the call of `avformat_write_header` at line 203: both
sources opened, the output context was allocated, the sink connection (when the
container needs one) opened, the stream parameters were filled, the encoder opened and
the scaler was created. -/
def reachesHeader (env : InitEnv) : Prop :=
  env.cam1Opened = true ∧ env.cam2Opened = true ∧ 0 ≤ env.allocContextRet ∧
  ((env.oformatFlags &&& AVFMT_NOFILE) = 0 → 0 ≤ env.avioOpenRet) ∧
  0 ≤ env.parametersRet ∧ 0 ≤ env.encoderOpenRet ∧ env.scalerAllocated = true

instance (env : InitEnv) : Decidable (reachesHeader env) := by
  unfold reachesHeader; infer_instance

/-! ## Sample inputs -/

/-- A frame of one colour value in every byte. -/
def solidFrame (rows cols v : Nat) : Frame :=
  { rows := rows, cols := cols, data := List.replicate (rows * cols * elemSize) v }

/-- A canvas buffer of the given size with every byte equal to `v`. -/
def solidCanvas (width height v : Nat) : Buf :=
  List.replicate (imgbufSize width height) v

/-- A codec context with nothing set, as a fresh allocation leaves the fields the
program touches. -/
def blankCodecContext : AVCodecContext :=
  { codec_tag := 0, codec_id := .AV_CODEC_ID_NONE, codec_type := .AVMEDIA_TYPE_UNKNOWN,
    width := 0, height := 0, gop_size := 0, pix_fmt := .AV_PIX_FMT_NONE,
    framerate := { num := 0, den := 1 }, time_base := { num := 0, den := 1 },
    bit_rate := 0, flags := 0 }

/-- A tick in which both sources deliver a frame of one colour each and the encoder
and the sink report success. -/
def solidTick (rows cols : Nat) : TickInput :=
  { frame1 := solidFrame rows cols 7, frame2 := solidFrame rows cols 9,
    sendRet := 0, recvRet := 0, writeRet := 0 }

/-- Loop configuration of a 2 by 1 canvas at the given frame rate with the stream time
base `1/1000`. -/
def smallConfig (fps : Int) : LoopConfig :=
  { image := canvasMat 2 1, fps := fps, codecTimeBase := { num := 1, den := fps },
    streamTimeBase := { num := 1, den := 1000 } }

/-- A set-up in which every call succeeds, for a container with the global-header flag
and no `AVFMT_NOFILE` (as FLV), a stream time base of `1/1000` and a fresh frame whose
`pts` is `AV_NOPTS_VALUE`. -/
def goodEnv : InitEnv :=
  { cam1Opened := true, cam2Opened := true, allocContextRet := 0,
    oformatFlags := AVFMT_GLOBALHEADER, avioOpenRet := 0, codecCtx0 := blankCodecContext,
    parametersRet := 0, encoderOpenRet := 0, scalerAllocated := true,
    framePts0 := INT64_MIN, writeHeaderRet := 0,
    streamTimeBase := { num := 1, den := 1000 } }

/-! ## Byte copies -/

theorem getD_set_eq (l : Buf) (i j v : Nat) :
    (l.set i v).getD j 0 = if i = j ∧ i < l.length then v else l.getD j 0 := by
  simp only [List.getD_eq_getElem?_getD, List.getElem?_set]
  by_cases hij : i = j
  · subst hij
    by_cases hi : i < l.length
    · simp [hi]
    · have : l[i]? = none := List.getElem?_eq_none (by omega)
      simp [hi, this]
  · simp [hij]

/-- A `memcpy` inside both buffers succeeds, keeps the length, puts the source bytes
at the destination range and leaves every other byte as it was. -/
theorem memcpy_ok (src : Buf) (n : Nat) : ∀ (dst : Buf) (d s : Nat),
    d + n ≤ dst.length → s + n ≤ src.length →
    ∃ out, memcpy dst d src s n = .ok out ∧ out.length = dst.length ∧
      (∀ k, k < n → out.getD (d + k) 0 = src.getD (s + k) 0) ∧
      (∀ i, (i < d ∨ d + n ≤ i) → out.getD i 0 = dst.getD i 0) := by
  induction n with
  | zero =>
    intro dst d s _ _
    exact ⟨dst, rfl, rfl, fun k hk => absurd hk (Nat.not_lt_zero k), fun _ _ => rfl⟩
  | succ n ih =>
    intro dst d s hd hs
    have hd1 : d < dst.length := by omega
    have hs1 : s < src.length := by omega
    obtain ⟨out, hout, hlen, hin, hotr⟩ :=
      ih (dst.set d (src.getD s 0)) (d + 1) (s + 1)
        (by rw [List.length_set]; omega) (by omega)
    refine ⟨out, ?_, ?_, ?_, ?_⟩
    · simp only [memcpy, hd1, hs1, and_self, if_true]
      exact hout
    · rw [hlen, List.length_set]
    · intro k hk
      cases k with
      | zero =>
        rw [Nat.add_zero, Nat.add_zero, hotr d (Or.inl (Nat.lt_succ_self d)), getD_set_eq]
        simp [hd1]
      | succ k =>
        have := hin k (by omega)
        rw [show d + (k + 1) = d + 1 + k by omega, show s + (k + 1) = s + 1 + k by omega]
        exact this
    · intro i hi
      rw [hotr i (by omega), getD_set_eq]
      have : ¬ (d = i ∧ d < dst.length) := by omega
      simp [this]

theorem row_col_inj (S r1 c1 r2 c2 : Nat) (h1 : c1 < S) (h2 : c2 < S)
    (h : r1 * S + c1 = r2 * S + c2) : r1 = r2 ∧ c1 = c2 := by
  rcases Nat.lt_trichotomy r1 r2 with hlt | heq | hgt
  · have := Nat.mul_le_mul_right S (Nat.succ_le_of_lt hlt)
    rw [Nat.succ_mul] at this
    omega
  · subst heq; omega
  · have := Nat.mul_le_mul_right S (Nat.succ_le_of_lt hgt)
    rw [Nat.succ_mul] at this
    omega

/-- The row loop on rows that lie inside both buffers and do not run into the next
destination row succeeds, keeps the length, puts row `r` of the source at row `r` of
the destination and leaves every other byte as it was. -/
theorem copyRows_ok (sbuf : Buf) (sstep dstep len : Nat) (hlen : len ≤ dstep) (n : Nat) :
    ∀ (sptr dptr : Nat) (dbuf : Buf),
    (∀ r, r < n → dptr + r * dstep + len ≤ dbuf.length) →
    (∀ r, r < n → sptr + r * sstep + len ≤ sbuf.length) →
    ∃ out, copyRows sbuf sstep dstep len n sptr dptr dbuf = .ok out ∧
      out.length = dbuf.length ∧
      (∀ r k, r < n → k < len →
        out.getD (dptr + r * dstep + k) 0 = sbuf.getD (sptr + r * sstep + k) 0) ∧
      (∀ i, (∀ r k, r < n → k < len → i ≠ dptr + r * dstep + k) →
        out.getD i 0 = dbuf.getD i 0) := by
  induction n with
  | zero =>
    intro sptr dptr dbuf _ _
    exact ⟨dbuf, rfl, rfl, fun r k hr _ => absurd hr (Nat.not_lt_zero r), fun _ _ => rfl⟩
  | succ n ih =>
    intro sptr dptr dbuf hd hs
    have hd0 := hd 0 (Nat.succ_pos n)
    have hs0 := hs 0 (Nat.succ_pos n)
    rw [Nat.zero_mul, Nat.add_zero] at hd0 hs0
    obtain ⟨buf1, hcpy, hlen1, hin1, hotr1⟩ := memcpy_ok sbuf len dbuf dptr sptr hd0 hs0
    have hd' : ∀ r, r < n → dptr + dstep + r * dstep + len ≤ buf1.length := by
      intro r hr
      have := hd (r + 1) (by omega)
      rw [Nat.succ_mul] at this
      omega
    have hs' : ∀ r, r < n → sptr + sstep + r * sstep + len ≤ sbuf.length := by
      intro r hr
      have := hs (r + 1) (by omega)
      rw [Nat.succ_mul] at this
      omega
    obtain ⟨out, hout, hlen2, hin2, hotr2⟩ := ih (sptr + sstep) (dptr + dstep) buf1 hd' hs'
    refine ⟨out, ?_, ?_, ?_, ?_⟩
    · simp only [copyRows, hcpy]
      exact hout
    · rw [hlen2, hlen1]
    · intro r k hr hk
      cases r with
      | zero =>
        rw [Nat.zero_mul, Nat.add_zero, Nat.zero_mul, Nat.add_zero]
        rw [hotr2 (dptr + k) (by intro r' k' _ _; omega)]
        exact hin1 k hk
      | succ r =>
        have := hin2 r k (by omega) hk
        rw [Nat.succ_mul, Nat.succ_mul]
        rw [show dptr + (r * dstep + dstep) + k = dptr + dstep + r * dstep + k by omega,
          show sptr + (r * sstep + sstep) + k = sptr + sstep + r * sstep + k by omega]
        exact this
    · intro i hi
      have hlater : ∀ r k, r < n → k < len → i ≠ dptr + dstep + r * dstep + k := by
        intro r k hr hk
        have := hi (r + 1) k (by omega) hk
        rw [Nat.succ_mul] at this
        omega
      have hrow0 : i < dptr ∨ dptr + len ≤ i := by
        by_contra hcon
        have := hi 0 (i - dptr) (Nat.succ_pos n) (by omega)
        rw [Nat.zero_mul] at this
        omega
      rw [hotr2 i hlater, hotr1 i hrow0]

/-- Copying a well-formed frame with pixels into the region of a `W` by `H` canvas that
starts at column `x0` of row 0, when the region fits: the copy succeeds, keeps the
buffer length, puts every byte of the frame at its place and leaves every other byte
as it was. -/
theorem copyTo_slot_ok (W H : Nat) (buf : Buf) (f : Frame) (x0 : Nat)
    (hbuf : H * W * 3 ≤ buf.length) (hx : x0 + f.cols ≤ W) (hy : f.rows ≤ H)
    (wf : f.WellFormed) (hne : ¬ f.empty) :
    ∃ out, f.mat.copyTo f.data
        { rows := f.rows, cols := f.cols, step := W * 3, off := x0 * 3 } buf = .ok out ∧
      out.length = buf.length ∧
      (∀ x y c, x < f.cols → y < f.rows → c < 3 →
        out.getD (y * (W * 3) + (x0 + x) * 3 + c) 0
          = f.data.getD (y * (f.cols * 3) + x * 3 + c) 0) ∧
      (∀ i, (∀ x y c, x < f.cols → y < f.rows → c < 3 →
          i ≠ y * (W * 3) + (x0 + x) * 3 + c) → out.getD i 0 = buf.getD i 0) := by
  unfold Frame.WellFormed elemSize at wf
  have hmat : ¬ f.mat.empty := hne
  have hd : ∀ r, r < f.rows → x0 * 3 + r * (W * 3) + f.cols * 3 ≤ buf.length := by
    intro r hr
    have h1 := Nat.mul_le_mul_right (W * 3) (Nat.succ_le_of_lt (Nat.lt_of_lt_of_le hr hy))
    rw [Nat.succ_mul] at h1
    have h2 : H * (W * 3) = H * W * 3 := by ring
    omega
  have hs : ∀ r, r < f.rows → 0 + r * (f.cols * 3) + f.cols * 3 ≤ f.data.length := by
    intro r hr
    have h1 := Nat.mul_le_mul_right (f.cols * 3) (Nat.succ_le_of_lt hr)
    rw [Nat.succ_mul] at h1
    have h2 : f.rows * (f.cols * 3) = f.rows * f.cols * 3 := by ring
    omega
  obtain ⟨out, hout, hlen, hin, hotr⟩ :=
    copyRows_ok f.data (f.cols * 3) (W * 3) (f.cols * 3) (by omega) f.rows 0 (x0 * 3) buf
      hd hs
  refine ⟨out, ?_, hlen, ?_, ?_⟩
  · simp only [Mat.copyTo, hmat, if_false]
    exact hout
  · intro x y c hx' hy' hc
    have := hin y (x * 3 + c) hy' (by omega)
    rw [show y * (W * 3) + (x0 + x) * 3 + c = x0 * 3 + y * (W * 3) + (x * 3 + c) by omega,
      show y * (f.cols * 3) + x * 3 + c = 0 + y * (f.cols * 3) + (x * 3 + c) by omega]
    exact this
  · intro i hi
    apply hotr
    intro r k hr hk
    have := hi (k / 3) r (k % 3) (by omega) hr (Nat.mod_lt k (by decide))
    omega

/-- Copying a frame without pixels into a region of the canvas does not return: the
release of the fixed-size destination fails its assertion. -/
theorem copyTo_empty (f : Frame) (dst : Mat) (buf : Buf) (he : f.empty) :
    f.mat.copyTo f.data dst buf = .error .releaseAssertion := by
  have hmat : f.mat.empty := he
  simp only [Mat.copyTo, hmat, if_true]

theorem roi_slot1 (W H : Nat) (f1 : Frame) (hw : f1.cols ≤ W) (hh : f1.rows ≤ H) :
    (canvasMat W H).roi (slotRect1 f1)
      = .ok { rows := f1.rows, cols := f1.cols, step := W * 3, off := 0 * 3 } := by
  simp [Mat.roi, canvasMat, slotRect1, hw, hh]

theorem roi_slot2 (W H : Nat) (f1 f2 : Frame) (hw : f1.cols + f2.cols ≤ W)
    (hh : f2.rows ≤ H) :
    (canvasMat W H).roi (slotRect2 f1 f2)
      = .ok { rows := f2.rows, cols := f2.cols, step := W * 3, off := f1.cols * 3 } := by
  simp [Mat.roi, canvasMat, slotRect2, elemSize, hw, hh]

/-- The composite step on two well-formed frames with pixels that fit side by side: it
succeeds,
keeps the buffer length, holds each frame at its slot and leaves every byte that
belongs to neither slot as it was. -/
theorem composite_ok (W H : Nat) (imgbuf : Buf) (f1 f2 : Frame)
    (hbuf : H * W * 3 ≤ imgbuf.length) (hw : f1.cols + f2.cols ≤ W)
    (h1 : f1.rows ≤ H) (h2 : f2.rows ≤ H) (wf1 : f1.WellFormed) (wf2 : f2.WellFormed)
    (hne1 : ¬ f1.empty) (hne2 : ¬ f2.empty) :
    ∃ out, composite (canvasMat W H) imgbuf f1 f2 = .ok out ∧
      out.length = imgbuf.length ∧
      (∀ x y c, x < f1.cols → y < f1.rows → c < 3 →
        out.getD (y * (W * 3) + x * 3 + c) 0
          = f1.data.getD (y * (f1.cols * 3) + x * 3 + c) 0) ∧
      (∀ x y c, x < f2.cols → y < f2.rows → c < 3 →
        out.getD (y * (W * 3) + (f1.cols + x) * 3 + c) 0
          = f2.data.getD (y * (f2.cols * 3) + x * 3 + c) 0) ∧
      (∀ i, (∀ x y c, x < f1.cols → y < f1.rows → c < 3 → i ≠ y * (W * 3) + x * 3 + c) →
        (∀ x y c, x < f2.cols → y < f2.rows → c < 3 →
          i ≠ y * (W * 3) + (f1.cols + x) * 3 + c) →
        out.getD i 0 = imgbuf.getD i 0) := by
  obtain ⟨b1, hb1, hl1, hin1, hotr1⟩ :=
    copyTo_slot_ok W H imgbuf f1 0 hbuf (by omega) h1 wf1 hne1
  obtain ⟨b2, hb2, hl2, hin2, hotr2⟩ :=
    copyTo_slot_ok W H b1 f2 f1.cols (by omega) hw h2 wf2 hne2
  refine ⟨b2, ?_, by rw [hl2, hl1], ?_, hin2, ?_⟩
  · simp only [composite, roi_slot1 W H f1 (by omega) h1, hb1, roi_slot2 W H f1 f2 hw h2, hb2]
  · intro x y c hx hy hc
    have hne : ∀ x' y' c', x' < f2.cols → y' < f2.rows → c' < 3 →
        y * (W * 3) + x * 3 + c ≠ y' * (W * 3) + (f1.cols + x') * 3 + c' := by
      intro x' y' c' hx' _ hc' heq
      have := row_col_inj (W * 3) y (x * 3 + c) y' ((f1.cols + x') * 3 + c')
        (by omega) (by omega) (by omega)
      omega
    rw [hotr2 _ hne]
    have := hin1 x y c hx hy hc
    rw [show y * (W * 3) + (0 + x) * 3 + c = y * (W * 3) + x * 3 + c by omega] at this
    exact this
  · intro i hi1 hi2
    rw [hotr2 i hi2]
    apply hotr1
    intro x y c hx hy hc
    have := hi1 x y c hx hy hc
    omega

/-- The composite step on frames that fit, of which one has no pixels (a failed read):
the copy of that frame does not return, the release of its fixed-size destination
fails its assertion. -/
theorem composite_empty_aborts (W H : Nat) (imgbuf : Buf) (f1 f2 : Frame)
    (hbuf : H * W * 3 ≤ imgbuf.length) (hw : f1.cols + f2.cols ≤ W)
    (h1 : f1.rows ≤ H) (h2 : f2.rows ≤ H) (wf1 : f1.WellFormed)
    (he : f1.empty ∨ f2.empty) :
    composite (canvasMat W H) imgbuf f1 f2 = .error .releaseAssertion := by
  by_cases he1 : f1.empty
  · simp only [composite, roi_slot1 W H f1 (by omega) h1, copyTo_empty f1 _ _ he1]
  · have he2 : f2.empty := he.resolve_left he1
    obtain ⟨b1, hb1, _⟩ := copyTo_slot_ok W H imgbuf f1 0 hbuf (by omega) h1 wf1 he1
    simp only [composite, roi_slot1 W H f1 (by omega) h1, hb1, roi_slot2 W H f1 f2 hw h2,
      copyTo_empty f2 _ _ he2]

/-! ## The compositor -/

/-- C1: for source frames with `w1 + w2 ≤ W`, `h1 ≤ H` and `h2 ≤ H` the slot rectangle
computed for source 1 is `(0, 0, w1, h1)` and for source 2 is `(w1, 0, w2, h2)`; the
region of interest taken for each has exactly the size of its frame and lies in the
canvas, and no pixel coordinate belongs to both rectangles. -/
theorem slot_geometry (W H : Nat) (f1 f2 : Frame)
    (hw : f1.cols + f2.cols ≤ W) (h1 : f1.rows ≤ H) (h2 : f2.rows ≤ H) :
    slotRect1 f1 = { x := 0, y := 0, width := f1.cols, height := f1.rows } ∧
    slotRect2 f1 f2 = { x := f1.cols, y := 0, width := f2.cols, height := f2.rows } ∧
    (∃ roi1, (canvasMat W H).roi (slotRect1 f1) = .ok roi1 ∧
      roi1.cols = f1.cols ∧ roi1.rows = f1.rows) ∧
    (∃ roi2, (canvasMat W H).roi (slotRect2 f1 f2) = .ok roi2 ∧
      roi2.cols = f2.cols ∧ roi2.rows = f2.rows) ∧
    (∀ x y, (slotRect1 f1).contains x y ∨ (slotRect2 f1 f2).contains x y → x < W ∧ y < H) ∧
    (∀ x y, ¬ ((slotRect1 f1).contains x y ∧ (slotRect2 f1 f2).contains x y)) := by
  refine ⟨rfl, rfl, ⟨_, roi_slot1 W H f1 (by omega) h1, rfl, rfl⟩,
    ⟨_, roi_slot2 W H f1 f2 hw h2, rfl, rfl⟩, ?_, ?_⟩
  · intro x y h
    simp only [Rect.contains, slotRect1, slotRect2] at h
    omega
  · intro x y h
    simp only [Rect.contains, slotRect1, slotRect2] at h
    omega

/-- Witness of C1: a 2560 by 720 canvas and two 1280 by 720 frames. -/
theorem slot_geometry_witness :
    slotRect1 ⟨720, 1280, []⟩ = { x := 0, y := 0, width := 1280, height := 720 } ∧
    slotRect2 ⟨720, 1280, []⟩ ⟨720, 1280, []⟩
      = { x := 1280, y := 0, width := 1280, height := 720 } ∧
    (∃ roi1, (canvasMat 2560 720).roi (slotRect1 ⟨720, 1280, []⟩) = .ok roi1 ∧
      roi1.cols = 1280 ∧ roi1.rows = 720) ∧
    (∃ roi2, (canvasMat 2560 720).roi (slotRect2 ⟨720, 1280, []⟩ ⟨720, 1280, []⟩) = .ok roi2 ∧
      roi2.cols = 1280 ∧ roi2.rows = 720) ∧
    (∀ x y, (slotRect1 ⟨720, 1280, []⟩).contains x y ∨
      (slotRect2 ⟨720, 1280, []⟩ ⟨720, 1280, []⟩).contains x y → x < 2560 ∧ y < 720) ∧
    (∀ x y, ¬ ((slotRect1 ⟨720, 1280, []⟩).contains x y ∧
      (slotRect2 ⟨720, 1280, []⟩ ⟨720, 1280, []⟩).contains x y)) :=
  slot_geometry 2560 720 ⟨720, 1280, []⟩ ⟨720, 1280, []⟩ (by decide) (by decide) (by decide)

/-- C2: after the composite of two well-formed source frames `w1` by `h1` and `w2` by
`h2` that the sources delivered (each has pixels) and that fit the canvas, the canvas
pixel at `(x, y)` equals the pixel of frame 1 at `(x, y)` for `x < w1`, `y < h1`, and the
canvas pixel at `(w1 + x, y)` equals the pixel of frame 2 at `(x, y)` for `x < w2`,
`y < h2`, channel by channel. -/
theorem composite_content (W H : Nat) (imgbuf : Buf) (f1 f2 : Frame)
    (hbuf : imgbuf.length = imgbufSize W H) (hw : f1.cols + f2.cols ≤ W)
    (h1 : f1.rows ≤ H) (h2 : f2.rows ≤ H) (wf1 : f1.WellFormed) (wf2 : f2.WellFormed)
    (hne1 : ¬ f1.empty) (hne2 : ¬ f2.empty) :
    ∃ out, composite (canvasMat W H) imgbuf f1 f2 = .ok out ∧
      (∀ x y c, x < f1.cols → y < f1.rows → c < 3 →
        (canvasMat W H).byteAt out x y c = f1.byteAt x y c) ∧
      (∀ x y c, x < f2.cols → y < f2.rows → c < 3 →
        (canvasMat W H).byteAt out (f1.cols + x) y c = f2.byteAt x y c) := by
  obtain ⟨out, hout, _, hs1, hs2, _⟩ :=
    composite_ok W H imgbuf f1 f2 (by rw [hbuf]; unfold imgbufSize; omega) hw h1 h2 wf1 wf2
      hne1 hne2
  refine ⟨out, hout, ?_, ?_⟩
  · intro x y c hx hy hc
    have := hs1 x y c hx hy hc
    simp only [Mat.byteAt, Frame.byteAt, Frame.mat, canvasMat, elemSize, Nat.zero_add]
    exact this
  · intro x y c hx hy hc
    have := hs2 x y c hx hy hc
    simp only [Mat.byteAt, Frame.byteAt, Frame.mat, canvasMat, elemSize, Nat.zero_add]
    exact this

theorem solidFrame_wellFormed (rows cols v : Nat) : (solidFrame rows cols v).WellFormed := by
  simp [Frame.WellFormed, solidFrame]

theorem solidCanvas_length (width height v : Nat) :
    (solidCanvas width height v).length = imgbufSize width height := by
  simp [solidCanvas]

/-- Witness of C2, the scenario of the specification: on a 2560 by 720 canvas with two
1280 by 720 frames, canvas `(0, 0)` equals frame 1 at `(0, 0)` and canvas `(1280, 0)`
equals frame 2 at `(0, 0)`. -/
theorem composite_content_witness :
    ∃ out, composite (canvasMat 2560 720) (solidCanvas 2560 720 0)
        (solidFrame 720 1280 7) (solidFrame 720 1280 9) = .ok out ∧
      (∀ c, c < 3 → (canvasMat 2560 720).byteAt out 0 0 c
        = (solidFrame 720 1280 7).byteAt 0 0 c) ∧
      (∀ c, c < 3 → (canvasMat 2560 720).byteAt out 1280 0 c
        = (solidFrame 720 1280 9).byteAt 0 0 c) := by
  obtain ⟨out, hout, hs1, hs2⟩ :=
    composite_content 2560 720 (solidCanvas 2560 720 0) (solidFrame 720 1280 7)
      (solidFrame 720 1280 9) (solidCanvas_length 2560 720 0) (by decide) (by decide)
      (by decide) (solidFrame_wellFormed 720 1280 7) (solidFrame_wellFormed 720 1280 9)
      (by decide) (by decide)
  exact ⟨out, hout, fun c hc => hs1 0 0 c (by decide) (by decide) hc,
    fun c hc => hs2 0 0 c (by decide) (by decide) hc⟩

/-- C9: when both source frames were delivered (each has pixels) and fit the canvas,
every canvas pixel whose coordinate lies in neither copied rectangle has the same bytes
after the composite step as before it, the bytes behind the last canvas row are
untouched and the buffer keeps its length: only the two rectangles are written. -/
theorem composite_stale (W H : Nat) (imgbuf : Buf) (f1 f2 : Frame)
    (hbuf : imgbuf.length = imgbufSize W H) (hw : f1.cols + f2.cols ≤ W)
    (h1 : f1.rows ≤ H) (h2 : f2.rows ≤ H) (wf1 : f1.WellFormed) (wf2 : f2.WellFormed)
    (hne1 : ¬ f1.empty) (hne2 : ¬ f2.empty) :
    ∃ out, composite (canvasMat W H) imgbuf f1 f2 = .ok out ∧
      out.length = imgbuf.length ∧
      (∀ x y c, x < W → y < H → c < 3 →
        ¬ (slotRect1 f1).contains x y → ¬ (slotRect2 f1 f2).contains x y →
        (canvasMat W H).byteAt out x y c = (canvasMat W H).byteAt imgbuf x y c) ∧
      (∀ i, H * W * 3 ≤ i → out.getD i 0 = imgbuf.getD i 0) := by
  obtain ⟨out, hout, hlen, _, _, hotr⟩ :=
    composite_ok W H imgbuf f1 f2 (by rw [hbuf]; unfold imgbufSize; omega) hw h1 h2 wf1 wf2
      hne1 hne2
  refine ⟨out, hout, hlen, ?_, ?_⟩
  · intro x y c hx _ hc hn1 hn2
    simp only [Rect.contains, slotRect1, slotRect2] at hn1 hn2
    simp only [Mat.byteAt, canvasMat, elemSize, Nat.zero_add]
    apply hotr
    · intro x' y' c' hx' hy' hc' heq
      have := row_col_inj (W * 3) y (x * 3 + c) y' (x' * 3 + c')
        (by omega) (by omega) (by omega)
      omega
    · intro x' y' c' hx' hy' hc' heq
      have := row_col_inj (W * 3) y (x * 3 + c) y' ((f1.cols + x') * 3 + c')
        (by omega) (by omega) (by omega)
      omega
  · intro i hi
    have hrow : ∀ y, y < H → y * (W * 3) + W * 3 ≤ H * W * 3 := by
      intro y hy
      have h := Nat.mul_le_mul_right (W * 3) (Nat.succ_le_of_lt hy)
      rw [Nat.succ_mul] at h
      have h2 : H * (W * 3) = H * W * 3 := by ring
      omega
    apply hotr
    · intro x' y' c' hx' hy' hc'
      have := hrow y' (by omega)
      omega
    · intro x' y' c' hx' hy' hc'
      have := hrow y' (by omega)
      omega

/-- Witness of C9: a 2560 by 720 canvas and two 640 by 480 frames; the pixel at column
1280 of row 0 and the pixel at column 0 of row 480 keep their bytes. -/
theorem composite_stale_witness :
    ∃ out, composite (canvasMat 2560 720) (solidCanvas 2560 720 5)
        (solidFrame 480 640 7) (solidFrame 480 640 9) = .ok out ∧
      out.length = (solidCanvas 2560 720 5).length ∧
      (∀ c, c < 3 → (canvasMat 2560 720).byteAt out 1280 0 c
        = (canvasMat 2560 720).byteAt (solidCanvas 2560 720 5) 1280 0 c) ∧
      (∀ c, c < 3 → (canvasMat 2560 720).byteAt out 0 480 c
        = (canvasMat 2560 720).byteAt (solidCanvas 2560 720 5) 0 480 c) := by
  obtain ⟨out, hout, hlen, hs, _⟩ :=
    composite_stale 2560 720 (solidCanvas 2560 720 5) (solidFrame 480 640 7)
      (solidFrame 480 640 9) (solidCanvas_length 2560 720 5) (by decide) (by decide)
      (by decide) (solidFrame_wellFormed 480 640 7) (solidFrame_wellFormed 480 640 9)
      (by decide) (by decide)
  exact ⟨out, hout, hlen,
    fun c hc => hs 1280 0 c (by decide) (by decide) hc (by decide) (by decide),
    fun c hc => hs 0 480 c (by decide) (by decide) hc (by decide) (by decide)⟩

/-- C10: for every canvas width `W` and height `H` (positive or not), with a canvas
buffer of `H * W * 3 + 16` bytes and row stride `W * 3`, and well-formed source frames
with `w1 + w2 ≤ W`, `h1 ≤ H`, `h2 ≤ H`, every offset `y * (W * 3) + 3 * x + c` of a byte
of a pixel `(x, y)` of either slot rectangle is below the buffer size, and the composite
step of the program never makes an access outside a buffer; when both frames have
pixels it completes and the buffer keeps its size. -/
theorem composite_in_bounds (W H : Nat) (imgbuf : Buf) (f1 f2 : Frame)
    (hbuf : imgbuf.length = imgbufSize W H) (hw : f1.cols + f2.cols ≤ W)
    (h1 : f1.rows ≤ H) (h2 : f2.rows ≤ H) (wf1 : f1.WellFormed) (wf2 : f2.WellFormed) :
    (∀ x y c, (slotRect1 f1).contains x y ∨ (slotRect2 f1 f2).contains x y → c < 3 →
      y * (W * 3) + 3 * x + c < imgbufSize W H) ∧
    composite (canvasMat W H) imgbuf f1 f2 ≠ .error .outOfBounds ∧
    (¬ f1.empty → ¬ f2.empty →
      ∃ out, composite (canvasMat W H) imgbuf f1 f2 = .ok out ∧
        out.length = imgbufSize W H) := by
  have hbuf3 : H * W * 3 ≤ imgbuf.length := by rw [hbuf]; unfold imgbufSize; omega
  refine ⟨?_, ?_, ?_⟩
  · intro x y c hin hc
    simp only [Rect.contains, slotRect1, slotRect2] at hin
    have hy : y < H := by omega
    have h := Nat.mul_le_mul_right (W * 3) (Nat.succ_le_of_lt hy)
    rw [Nat.succ_mul] at h
    have h2 : H * (W * 3) = H * W * 3 := by ring
    unfold imgbufSize
    omega
  · by_cases he : f1.empty ∨ f2.empty
    · rw [composite_empty_aborts W H imgbuf f1 f2 hbuf3 hw h1 h2 wf1 he]
      intro h
      cases h
    · obtain ⟨out, hout, _⟩ :=
        composite_ok W H imgbuf f1 f2 hbuf3 hw h1 h2 wf1 wf2
          (fun h => he (Or.inl h)) (fun h => he (Or.inr h))
      rw [hout]
      intro h
      cases h
  · intro hne1 hne2
    obtain ⟨out, hout, hlen, _⟩ :=
      composite_ok W H imgbuf f1 f2 hbuf3 hw h1 h2 wf1 wf2 hne1 hne2
    exact ⟨out, hout, by rw [hlen, hbuf]⟩

/-- Witness of C10: a 2560 by 720 canvas and two 1280 by 720 frames. -/
theorem composite_in_bounds_witness :
    (∀ x y c, (slotRect1 (solidFrame 720 1280 7)).contains x y ∨
        (slotRect2 (solidFrame 720 1280 7) (solidFrame 720 1280 9)).contains x y → c < 3 →
      y * (2560 * 3) + 3 * x + c < imgbufSize 2560 720) ∧
    composite (canvasMat 2560 720) (solidCanvas 2560 720 0)
      (solidFrame 720 1280 7) (solidFrame 720 1280 9) ≠ .error .outOfBounds ∧
    (∃ out, composite (canvasMat 2560 720) (solidCanvas 2560 720 0)
        (solidFrame 720 1280 7) (solidFrame 720 1280 9) = .ok out ∧
      out.length = imgbufSize 2560 720) :=
  have h := composite_in_bounds 2560 720 (solidCanvas 2560 720 0) (solidFrame 720 1280 7)
    (solidFrame 720 1280 9) (solidCanvas_length 2560 720 0)
    (by decide) (by decide) (by decide) (solidFrame_wellFormed 720 1280 7)
    (solidFrame_wellFormed 720 1280 9)
  ⟨h.1, h.2.1, h.2.2 (by decide) (by decide)⟩

/-! ## The loop -/

/-- An iteration that completes made exactly the calls of a good tick, on a canvas the
composite step produced and with the advanced `pts`. -/
theorem tick_ok_inv (cfg : LoopConfig) (st st1 : LoopState) (t : TickInput)
    (calls : List Event) (h : tick cfg st t = (calls, .ok st1)) :
    composite cfg.image st.imgbuf t.frame1 t.frame2 = .ok st1.imgbuf ∧
    st1.pts = advancePts st.pts cfg.codecTimeBase cfg.streamTimeBase ∧
    calls = [.swsScale, .sendFrame st1.pts, .receivePacket, .writePacket,
      .usleep (sleepMicros cfg.fps)] ∧
    cfg.fps ≠ 0 ∧ 0 ≤ t.sendRet ∧ 0 ≤ t.recvRet := by
  cases hc : composite cfg.image st.imgbuf t.frame1 t.frame2 with
  | error e =>
    cases e <;> simp [tick, hc] at h
  | ok out =>
    by_cases h1 : t.sendRet < 0
    · simp [tick, hc, write_frame, h1] at h
    · by_cases h2 : t.recvRet < 0
      · simp [tick, hc, write_frame, h1, h2] at h
      · by_cases h3 : cfg.fps = 0
        · simp [tick, hc, write_frame, h1, h2, h3] at h
        · simp only [tick, hc, write_frame, h1, h2, h3, if_false, Prod.mk.injEq,
            Except.ok.injEq] at h
          obtain ⟨hcalls, hst⟩ := h
          subst hst
          refine ⟨rfl, rfl, ?_, h3, by omega, by omega⟩
          rw [← hcalls]
          simp

/-- An iteration on delivered frames that fit the canvas, with an encoder that takes the frame
and yields a packet, completes and keeps the length of the canvas buffer. -/
theorem tick_complete (cfg : LoopConfig) (st : LoopState) (t : TickInput) (W H : Nat)
    (himg : cfg.image = canvasMat W H) (hbuf : H * W * 3 ≤ st.imgbuf.length)
    (hw : t.frame1.cols + t.frame2.cols ≤ W) (h1 : t.frame1.rows ≤ H)
    (h2 : t.frame2.rows ≤ H) (wf1 : t.frame1.WellFormed) (wf2 : t.frame2.WellFormed)
    (hne1 : ¬ t.frame1.empty) (hne2 : ¬ t.frame2.empty)
    (hs : 0 ≤ t.sendRet) (hr : 0 ≤ t.recvRet) (hf : cfg.fps ≠ 0) :
    ∃ calls st1, tick cfg st t = (calls, .ok st1) ∧
      st1.imgbuf.length = st.imgbuf.length := by
  obtain ⟨out, hout, hlen, _⟩ :=
    composite_ok W H st.imgbuf t.frame1 t.frame2 hbuf hw h1 h2 wf1 wf2 hne1 hne2
  have hs' : ¬ t.sendRet < 0 := by omega
  have hr' : ¬ t.recvRet < 0 := by omega
  refine ⟨[.swsScale, .sendFrame (advancePts st.pts cfg.codecTimeBase cfg.streamTimeBase),
    .receivePacket, .writePacket, .usleep (sleepMicros cfg.fps)],
    ⟨out, advancePts st.pts cfg.codecTimeBase cfg.streamTimeBase⟩, ?_, hlen⟩
  simp [tick, himg, hout, write_frame, hs', hr', hf]

theorem sleptMicros_append (a b : List Event) :
    sleptMicros (a ++ b) = sleptMicros a + sleptMicros b := by
  induction a with
  | nil => simp [sleptMicros]
  | cons e a ih =>
    cases e <;> simp [sleptMicros, ih, add_assoc]

theorem loop_cons_ok (cfg : LoopConfig) (st st1 : LoopState) (t : TickInput)
    (ts : List TickInput) (calls : List Event) (h : tick cfg st t = (calls, .ok st1)) :
    loop cfg st (t :: ts) = (calls ++ (loop cfg st1 ts).1, (loop cfg st1 ts).2) := by
  simp only [loop, h]

theorem loop_cons_error (cfg : LoopConfig) (st : LoopState) (t : TickInput)
    (ts : List TickInput) (calls : List Event) (term : Termination)
    (h : tick cfg st t = (calls, .error term)) :
    loop cfg st (t :: ts) = (calls, .error term) := by
  simp only [loop, h]

/-- A run of the loop that is still going has slept once per iteration. -/
theorem loop_slept (cfg : LoopConfig) (ticks : List TickInput) :
    ∀ (st st1 : LoopState) (calls : List Event),
    loop cfg st ticks = (calls, .ok st1) →
    sleptMicros calls = (ticks.length : Int) * sleepMicros cfg.fps := by
  induction ticks with
  | nil =>
    intro st st1 calls h
    simp only [loop, Prod.mk.injEq] at h
    simp [← h.1, sleptMicros]
  | cons t ts ih =>
    intro st st1 calls h
    rcases htick : tick cfg st t with ⟨c, r⟩
    cases r with
    | error term =>
      rw [loop_cons_error cfg st t ts c term htick] at h
      simp at h
    | ok s1 =>
      rw [loop_cons_ok cfg st s1 t ts c htick] at h
      simp only [Prod.mk.injEq] at h
      obtain ⟨hcalls, hres⟩ := h
      have hrest := ih s1 st1 (loop cfg s1 ts).1 (by rw [← hres])
      have hc := (tick_ok_inv cfg st s1 t c htick).2.2.1
      rw [← hcalls, sleptMicros_append, hrest, hc]
      simp only [sleptMicros, List.length_cons]
      push_cast
      ring

/-- The loop keeps going for as many iterations as one likes when every pair of frames
has pixels and fits and the encoder takes every frame and yields a packet for it. -/
theorem loop_replicate_ok (cfg : LoopConfig) (t : TickInput) (W H : Nat)
    (himg : cfg.image = canvasMat W H)
    (hw : t.frame1.cols + t.frame2.cols ≤ W) (h1 : t.frame1.rows ≤ H)
    (h2 : t.frame2.rows ≤ H) (wf1 : t.frame1.WellFormed) (wf2 : t.frame2.WellFormed)
    (hne1 : ¬ t.frame1.empty) (hne2 : ¬ t.frame2.empty)
    (hs : 0 ≤ t.sendRet) (hr : 0 ≤ t.recvRet) (hf : cfg.fps ≠ 0) (n : Nat) :
    ∀ st : LoopState, H * W * 3 ≤ st.imgbuf.length →
    ∃ calls st1, loop cfg st (List.replicate n t) = (calls, .ok st1) := by
  induction n with
  | zero =>
    intro st _
    exact ⟨[], st, rfl⟩
  | succ n ih =>
    intro st hbuf
    obtain ⟨c, s1, htick, hlen⟩ :=
      tick_complete cfg st t W H himg hbuf hw h1 h2 wf1 wf2 hne1 hne2 hs hr hf
    obtain ⟨rest, st1, hrest⟩ := ih s1 (by rw [hlen]; exact hbuf)
    refine ⟨c ++ rest, st1, ?_⟩
    rw [List.replicate_succ, loop_cons_ok cfg st s1 t _ c htick, hrest]

/-- An iteration in which a source delivered no frame (a frame without pixels) while
the frames fit the canvas: the program terminates with the uncaught exception of the
copy and makes no further call. -/
theorem tick_empty_frame_aborts (cfg : LoopConfig) (st : LoopState) (t : TickInput)
    (W H : Nat) (himg : cfg.image = canvasMat W H) (hbuf : H * W * 3 ≤ st.imgbuf.length)
    (hw : t.frame1.cols + t.frame2.cols ≤ W) (h1 : t.frame1.rows ≤ H)
    (h2 : t.frame2.rows ≤ H) (wf1 : t.frame1.WellFormed)
    (he : t.frame1.empty ∨ t.frame2.empty) :
    tick cfg st t = ([], .error .uncaughtException) := by
  simp only [tick, himg,
    composite_empty_aborts W H st.imgbuf t.frame1 t.frame2 hbuf hw h1 h2 wf1 he]

/-- Counterexample to C3 as stated: on the default 2560 by 720 canvas two 1920 by 1080
frames do not fit; the tick does not skip the slot and go on, the program ends with
the exception of the region-of-interest assertion and makes no further call. -/
theorem layout_overflow_counterexample :
    tick (loopConfig 2560 720 30 (set_codec_params 0 blankCodecContext 2560 720 30 300000)
        { num := 1, den := 1000 })
      { imgbuf := solidCanvas 2560 720 0, pts := 0 } (solidTick 1080 1920)
      = ([], .error .uncaughtException) := by
  rfl

/-- C3, amended: when the slot rectangle of a source frame does not fit inside the
canvas, the tick makes no conversion, encoder, sink or sleep call and the program
terminates with the uncaught exception of the region-of-interest assertion (or, when
the first frame fits but has no pixels, of its copy); nothing is validated, skipped or
continued. -/
theorem layout_overflow_terminates (cfg : LoopConfig) (st : LoopState) (t : TickInput)
    (W H : Nat) (himg : cfg.image = canvasMat W H) (hbuf : H * W * 3 ≤ st.imgbuf.length)
    (wf1 : t.frame1.WellFormed)
    (hover : ¬ ((t.frame1.cols ≤ W ∧ t.frame1.rows ≤ H) ∧
      (t.frame1.cols + t.frame2.cols ≤ W ∧ t.frame2.rows ≤ H))) :
    tick cfg st t = ([], .error .uncaughtException) := by
  by_cases hfit1 : t.frame1.cols ≤ W ∧ t.frame1.rows ≤ H
  · by_cases he1 : t.frame1.empty
    · have hcomp : composite (canvasMat W H) st.imgbuf t.frame1 t.frame2
          = .error .releaseAssertion := by
        simp only [composite, roi_slot1 W H t.frame1 hfit1.1 hfit1.2,
          copyTo_empty t.frame1 _ _ he1]
      simp only [tick, himg, hcomp]
    · obtain ⟨b1, hb1, _⟩ :=
        copyTo_slot_ok W H st.imgbuf t.frame1 0 hbuf (by omega) hfit1.2 wf1 he1
      have hfit2 : ¬ (t.frame1.cols + t.frame2.cols ≤ W ∧ t.frame2.rows ≤ H) :=
        fun h => hover ⟨hfit1, h⟩
      have hroi2 : (canvasMat W H).roi (slotRect2 t.frame1 t.frame2)
          = .error .roiAssertion := by
        simp only [Mat.roi, canvasMat, slotRect2, Nat.zero_add, hfit2, if_false]
      have hcomp : composite (canvasMat W H) st.imgbuf t.frame1 t.frame2
          = .error .roiAssertion := by
        simp only [composite, roi_slot1 W H t.frame1 hfit1.1 hfit1.2, hb1, hroi2]
      simp only [tick, himg, hcomp]
  · have hroi1 : (canvasMat W H).roi (slotRect1 t.frame1) = .error .roiAssertion := by
      simp only [Mat.roi, canvasMat, slotRect1, Nat.zero_add, hfit1, if_false]
    have hcomp : composite (canvasMat W H) st.imgbuf t.frame1 t.frame2
        = .error .roiAssertion := by
      simp only [composite, hroi1]
    simp only [tick, himg, hcomp]

/-- Witness of the amended C3: a 4 by 2 canvas, a 2 by 2 frame and a 3 by 2 frame. -/
theorem layout_overflow_terminates_witness :
    tick { image := canvasMat 4 2, fps := 30, codecTimeBase := { num := 1, den := 30 },
           streamTimeBase := { num := 1, den := 1000 } }
      { imgbuf := solidCanvas 4 2 0, pts := 0 }
      { frame1 := solidFrame 2 2 7, frame2 := solidFrame 2 3 9,
        sendRet := 0, recvRet := 0, writeRet := 0 }
      = ([], .error .uncaughtException) :=
  layout_overflow_terminates _ _ _ 4 2 rfl (by decide) (by decide) (by decide)

/-! ## Timestamps -/

/-- One tick of the encoder time base `1/fps` in a stream time base `num/den`:
`(den + (num * fps) / 2) / (num * fps)`. -/
theorem av_rescale_q_one (fps : Int) (tb : AVRational)
    (hc : 0 < tb.num * fps) (hden : 0 ≤ tb.den) :
    av_rescale_q 1 { num := 1, den := fps } tb
      = (tb.den + tb.num * fps / 2) / (tb.num * fps) := by
  have h1 : ¬ (tb.num * fps ≤ 0 ∨ 1 * tb.den < 0) := by omega
  have h2 : (0 : Int) ≤ tb.num * fps / 2 := by omega
  have e1 : Int.tdiv (tb.num * fps) 2 = tb.num * fps / 2 :=
    Int.tdiv_eq_ediv (by omega) (by decide)
  simp only [av_rescale_q, av_rescale_rnd_near_inf, h1, if_false]
  rw [if_neg (by decide), e1, Int.tdiv_eq_ediv (by omega) (by omega)]
  simp

theorem wrapInt64_of_range (x : Int) (hlo : INT64_MIN ≤ x) (hhi : x ≤ INT64_MAX) :
    wrapInt64 x = x := by
  unfold INT64_MIN at hlo
  unfold INT64_MAX at hhi
  unfold wrapInt64
  omega

theorem rescale_pos_iff (c d : Int) (hc : 0 < c) :
    0 < (d + c / 2) / c ↔ c ≤ 2 * d := by
  have h : 1 ≤ (d + c / 2) / c ↔ 1 * c ≤ d + c / 2 := Int.le_ediv_iff_mul_le hc
  omega

/-- Counterexample to C4 as stated: with `fps = 2001` and the stream time base
`1/1000`, a tick completes and leaves the `pts` where it was, not strictly greater. -/
theorem pts_progression_counterexample :
    ∃ calls st1,
      tick (loopConfig 2 1 2001 (set_codec_params 0 blankCodecContext 2 1 2001 300000)
          { num := 1, den := 1000 })
        { imgbuf := solidCanvas 2 1 0, pts := 0 } (solidTick 1 1) = (calls, .ok st1) ∧
      st1.pts = 0 ∧ ¬ (0 < st1.pts) :=
  ⟨_, _, rfl, rfl, by decide⟩

/-- C4, amended: for every configured `fps > 0`, every stream time base `num/den` with
`num > 0` and `den ≥ 0`, and every tick that completes with the sum inside the 64-bit
range, the `pts` after the tick equals the `pts` before it plus
`rescale(1, 1/fps, num/den) = (den + (num * fps) / 2) / (num * fps)`, where `1/fps` is
the time base `set_codec_params` configured; this `pts` is strictly greater than the
previous one exactly when `num * fps ≤ 2 * den`. -/
theorem pts_progression (W H : Nat) (fps bitrate : Int) (oformatFlags : Nat)
    (ctx0 : AVCodecContext) (tb : AVRational) (st st1 : LoopState) (t : TickInput)
    (calls : List Event)
    (hfps : 0 < fps) (hnum : 0 < tb.num) (hden : 0 ≤ tb.den)
    (hlo : INT64_MIN ≤ st.pts)
    (hhi : st.pts + av_rescale_q 1 { num := 1, den := fps } tb ≤ INT64_MAX)
    (hrun : tick (loopConfig W H fps (set_codec_params oformatFlags ctx0 W H fps bitrate) tb)
      st t = (calls, .ok st1)) :
    st1.pts = st.pts + av_rescale_q 1 { num := 1, den := fps } tb ∧
    av_rescale_q 1 { num := 1, den := fps } tb
      = (tb.den + tb.num * fps / 2) / (tb.num * fps) ∧
    (st.pts < st1.pts ↔ tb.num * fps ≤ 2 * tb.den) := by
  have hc : 0 < tb.num * fps := Int.mul_pos hnum hfps
  have hq := av_rescale_q_one fps tb hc hden
  have htb : (set_codec_params oformatFlags ctx0 W H fps bitrate).time_base
      = { num := 1, den := fps } := by
    unfold set_codec_params
    split <;> rfl
  have hinc : 0 ≤ av_rescale_q 1 { num := 1, den := fps } tb := by
    rw [hq]
    exact Int.ediv_nonneg (by omega) (by omega)
  have hpts := (tick_ok_inv _ st st1 t calls hrun).2.1
  simp only [loopConfig, htb, advancePts] at hpts
  rw [wrapInt64_of_range _ (by omega) hhi] at hpts
  refine ⟨hpts, hq, ?_⟩
  rw [hpts, hq]
  have := rescale_pos_iff (tb.num * fps) tb.den hc
  omega

/-- Witness of the amended C4: `fps = 30` and the stream time base `1/1000`; the `pts`
goes from 0 to 33. -/
theorem pts_progression_witness :
    (33 : Int) = 0 + av_rescale_q 1 { num := 1, den := 30 } { num := 1, den := 1000 } ∧
    av_rescale_q 1 { num := 1, den := 30 } { num := 1, den := 1000 }
      = ((1000 : Int) + 1 * 30 / 2) / (1 * 30) ∧
    ((0 : Int) < 33 ↔ (1 : Int) * 30 ≤ 2 * 1000) :=
  pts_progression 2 1 30 300000 0 blankCodecContext { num := 1, den := 1000 }
    { imgbuf := solidCanvas 2 1 0, pts := 0 }
    { imgbuf := [7, 7, 7, 9, 9, 9, 0, 0, 0, 0, 0, 0, 0, 0, 0, 0, 0, 0, 0, 0, 0, 0], pts := 33 }
    (solidTick 1 1)
    [.swsScale, .sendFrame 33, .receivePacket, .writePacket, .usleep 33333]
    (by decide) (by decide) (by decide) (by decide) (by decide) rfl

/-! ## Pacing -/

theorem sleepMicros_eq (fps : Int) (hF : 0 < fps) : sleepMicros fps = 1000000 / fps := by
  unfold sleepMicros
  exact Int.tdiv_eq_ediv (by decide) (by omega)

theorem pacing_arith (N F M : Int) :
    (N - 1) * M ≤ N * (M / F) * F ↔ N * (M % F) ≤ M := by
  have e := Int.ediv_add_emod M F
  generalize M / F = q at e ⊢
  generalize M % F = r at e ⊢
  subst e
  constructor <;> intro h <;> nlinarith [h]

/-- Counterexample to C5 as stated: at `fps = 30` the sleep of a tick is 33333
microseconds, which is not 1/30 second, and a run of 100001 ticks has slept less than
`100000/30` seconds in total. -/
theorem pacing_counterexample :
    sleepMicros 30 * 30 ≠ 1000000 ∧
    ∃ calls st1,
      loop (loopConfig 2560 720 30 (set_codec_params 0 blankCodecContext 2560 720 30 300000)
          { num := 1, den := 1000 })
        { imgbuf := solidCanvas 2560 720 0, pts := 0 }
        (List.replicate 100001 (solidTick 720 1280)) = (calls, .ok st1) ∧
      sleptMicros calls * 30 < (100001 - 1) * 1000000 := by
  refine ⟨by decide, ?_⟩
  obtain ⟨calls, st1, hrun⟩ :=
    loop_replicate_ok
      (loopConfig 2560 720 30 (set_codec_params 0 blankCodecContext 2560 720 30 300000)
        { num := 1, den := 1000 })
      (solidTick 720 1280) 2560 720 rfl (by decide) (by decide) (by decide)
      (solidFrame_wellFormed 720 1280 7) (solidFrame_wellFormed 720 1280 9)
      (by decide) (by decide) (by decide) (by decide) (by decide) 100001
      { imgbuf := solidCanvas 2560 720 0, pts := 0 }
      (by show 720 * 2560 * 3 ≤ (solidCanvas 2560 720 0).length
          rw [solidCanvas_length]; decide)
  refine ⟨calls, st1, hrun, ?_⟩
  have h30 : sleepMicros (loopConfig 2560 720 30
      (set_codec_params 0 blankCodecContext 2560 720 30 300000)
      { num := 1, den := 1000 }).fps = 33333 := by decide
  rw [loop_slept _ _ _ _ _ hrun, h30, List.length_replicate]
  norm_num

/-- C5, amended: for every `fps = F > 0` the driver sleeps `1000000 / F` microseconds
(integer division) at the end of each tick, which is at most `1/F` second and short
of it by less than a microsecond; the summed sleep of a run of `N` ticks is
`N * (1000000 / F)` microseconds, and it is at least `(N - 1)/F` seconds exactly when
`N * (1000000 mod F) ≤ 1000000`. -/
theorem pacing (cfg : LoopConfig) (st st1 : LoopState) (ticks : List TickInput)
    (calls : List Event) (hF : 0 < cfg.fps)
    (hrun : loop cfg st ticks = (calls, .ok st1)) :
    sleepMicros cfg.fps = 1000000 / cfg.fps ∧
    sleepMicros cfg.fps * cfg.fps ≤ 1000000 ∧
    1000000 < (sleepMicros cfg.fps + 1) * cfg.fps ∧
    sleptMicros calls = (ticks.length : Int) * sleepMicros cfg.fps ∧
    (((ticks.length : Int) - 1) * 1000000 ≤ sleptMicros calls * cfg.fps ↔
      (ticks.length : Int) * (1000000 % cfg.fps) ≤ 1000000) := by
  have hs := sleepMicros_eq cfg.fps hF
  have hsum := loop_slept cfg ticks st st1 calls hrun
  have e := Int.ediv_add_emod 1000000 cfg.fps
  have hr := Int.emod_lt_of_pos 1000000 hF
  have hr0 := Int.emod_nonneg 1000000 (ne_of_gt hF)
  refine ⟨hs, ?_, ?_, hsum, ?_⟩
  · rw [hs]; nlinarith
  · rw [hs]; nlinarith
  · rw [hsum, hs]
    exact pacing_arith _ _ _

/-- Witness of the amended C5: two ticks at `fps = 30` on a 2 by 1 canvas. -/
theorem pacing_witness :
    sleepMicros 30 = 1000000 / 30 ∧
    sleepMicros 30 * 30 ≤ 1000000 ∧
    1000000 < (sleepMicros 30 + 1) * 30 ∧
    sleptMicros [.swsScale, .sendFrame 33, .receivePacket, .writePacket, .usleep 33333,
      .swsScale, .sendFrame 66, .receivePacket, .writePacket, .usleep 33333]
      = ((2 : Nat) : Int) * sleepMicros 30 ∧
    ((((2 : Nat) : Int) - 1) * 1000000
      ≤ sleptMicros [.swsScale, .sendFrame 33, .receivePacket, .writePacket, .usleep 33333,
        .swsScale, .sendFrame 66, .receivePacket, .writePacket, .usleep 33333] * 30 ↔
      ((2 : Nat) : Int) * (1000000 % 30) ≤ 1000000) :=
  pacing (smallConfig 30) { imgbuf := solidCanvas 2 1 0, pts := 0 }
    { imgbuf := [7, 7, 7, 9, 9, 9, 0, 0, 0, 0, 0, 0, 0, 0, 0, 0, 0, 0, 0, 0, 0, 0], pts := 66 }
    [solidTick 1 1, solidTick 1 1]
    [.swsScale, .sendFrame 33, .receivePacket, .writePacket, .usleep 33333,
      .swsScale, .sendFrame 66, .receivePacket, .writePacket, .usleep 33333]
    (by decide) rfl

/-! ## Encoder and sink -/

/-- C8: for every width, height, fps and bit rate, `set_codec_params` leaves the codec
context with codec id H.264, pixel format YUV420P, GOP size 12, the given width, height
and bit rate, frame rate `fps/1` and time base `1/fps`; when the container format has
the global-header flag the global-header bit of the codec flags is set (and no other
bit changes), and when it has not the codec flags are unchanged. -/
theorem set_codec_params_spec (oformatFlags : Nat) (codec_ctx : AVCodecContext)
    (width height fps bitrate : Int) :
    (set_codec_params oformatFlags codec_ctx width height fps bitrate).codec_id
      = .AV_CODEC_ID_H264 ∧
    (set_codec_params oformatFlags codec_ctx width height fps bitrate).pix_fmt
      = .AV_PIX_FMT_YUV420P ∧
    (set_codec_params oformatFlags codec_ctx width height fps bitrate).gop_size = 12 ∧
    (set_codec_params oformatFlags codec_ctx width height fps bitrate).width = width ∧
    (set_codec_params oformatFlags codec_ctx width height fps bitrate).height = height ∧
    (set_codec_params oformatFlags codec_ctx width height fps bitrate).bit_rate = bitrate ∧
    (set_codec_params oformatFlags codec_ctx width height fps bitrate).framerate
      = { num := fps, den := 1 } ∧
    (set_codec_params oformatFlags codec_ctx width height fps bitrate).time_base
      = { num := 1, den := fps } ∧
    (set_codec_params oformatFlags codec_ctx width height fps bitrate).time_base
      = av_inv_q (set_codec_params oformatFlags codec_ctx width height fps bitrate).framerate ∧
    ((oformatFlags &&& AVFMT_GLOBALHEADER) ≠ 0 →
      (set_codec_params oformatFlags codec_ctx width height fps bitrate).flags
        = codec_ctx.flags ||| AV_CODEC_FLAG_GLOBAL_HEADER ∧
      (set_codec_params oformatFlags codec_ctx width height fps bitrate).flags.testBit 22
        = true ∧
      ∀ i, i ≠ 22 →
        (set_codec_params oformatFlags codec_ctx width height fps bitrate).flags.testBit i
          = codec_ctx.flags.testBit i) ∧
    ((oformatFlags &&& AVFMT_GLOBALHEADER) = 0 →
      (set_codec_params oformatFlags codec_ctx width height fps bitrate).flags
        = codec_ctx.flags) := by
  by_cases hg : (oformatFlags &&& AVFMT_GLOBALHEADER) = 0
  · simp [set_codec_params, av_inv_q, hg]
  · simp only [set_codec_params, av_inv_q, hg, ne_eq, not_false_eq_true, if_true,
      true_and, false_implies, and_true, true_implies]
    refine ⟨?_, ?_⟩
    · simp only [AV_CODEC_FLAG_GLOBAL_HEADER, Nat.testBit_or, Nat.testBit_two_pow_self,
        Bool.or_true]
    · intro i hi
      have : ¬ (22 = i) := fun h => hi h.symm
      simp only [AV_CODEC_FLAG_GLOBAL_HEADER, Nat.testBit_or, Nat.testBit_two_pow, this,
        decide_False, Bool.or_false]

/-- Witness of C8: a container with the global-header flag; the flag bit 22 of the
codec flags is set and the other bits are as before. -/
theorem set_codec_params_spec_witness :
    (set_codec_params AVFMT_GLOBALHEADER blankCodecContext 2560 720 30 300000).flags
      = blankCodecContext.flags ||| AV_CODEC_FLAG_GLOBAL_HEADER ∧
    (set_codec_params AVFMT_GLOBALHEADER blankCodecContext 2560 720 30 300000).flags.testBit 22
      = true ∧
    ∀ i, i ≠ 22 →
      (set_codec_params AVFMT_GLOBALHEADER blankCodecContext 2560 720 30 300000).flags.testBit i
        = blankCodecContext.flags.testBit i :=
  (set_codec_params_spec AVFMT_GLOBALHEADER blankCodecContext 2560 720 30
    300000).2.2.2.2.2.2.2.2.2.1 (by decide)

/-- Failing input of C6: the encoder takes the frame and yields a packet, the sink
write returns `-32` (`AVERROR(EPIPE)`); `write_frame` returns to the loop and the tick
goes on to its sleep, no `exit(1)`. -/
theorem write_frame_ignores_sink_failure :
    write_frame 0 0 (-32) 33 = ([.sendFrame 33, .receivePacket, .writePacket], none) ∧
    tick (smallConfig 30) { imgbuf := solidCanvas 2 1 0, pts := 0 }
      { frame1 := solidFrame 1 1 7, frame2 := solidFrame 1 1 9,
        sendRet := 0, recvRet := 0, writeRet := -32 }
      = ([.swsScale, .sendFrame 33, .receivePacket, .writePacket, .usleep 33333],
        .ok { imgbuf := [7, 7, 7, 9, 9, 9, 0, 0, 0, 0, 0, 0, 0, 0, 0, 0, 0, 0, 0, 0, 0, 0],
              pts := 33 }) :=
  ⟨rfl, rfl⟩

/-- The encoder half of C6: when the encoder rejects the frame or yields no packet,
`write_frame` ends the program with `exit(1)` and hands no packet to the sink. -/
theorem write_frame_encoder_failure (sendRet recvRet writeRet pts : Int)
    (h : sendRet < 0 ∨ recvRet < 0) :
    (write_frame sendRet recvRet writeRet pts).2 = some (.exit 1) ∧
    Event.writePacket ∉ (write_frame sendRet recvRet writeRet pts).1 := by
  by_cases hs : sendRet < 0
  · simp [write_frame, hs]
  · have hr : recvRet < 0 := by omega
    simp [write_frame, hs, hr]

/-- The value returned by the sink write has no influence on `write_frame`. -/
theorem write_frame_writeRet_irrelevant (sendRet recvRet writeRet writeRet2 pts : Int) :
    write_frame sendRet recvRet writeRet pts = write_frame sendRet recvRet writeRet2 pts := by
  rfl

/-! ## Order of the calls on the sink -/

theorem tick_no_header (cfg : LoopConfig) (st : LoopState) (t : TickInput) :
    Event.writeHeader ∉ (tick cfg st t).1 := by
  cases hc : composite cfg.image st.imgbuf t.frame1 t.frame2 with
  | error e => cases e <;> simp [tick, hc]
  | ok out =>
    by_cases h1 : t.sendRet < 0
    · simp [tick, hc, write_frame, h1]
    · by_cases h2 : t.recvRet < 0
      · simp [tick, hc, write_frame, h1, h2]
      · by_cases h3 : cfg.fps = 0
        · simp [tick, hc, write_frame, h1, h2, h3]
        · simp [tick, hc, write_frame, h1, h2, h3]

theorem loop_no_header (cfg : LoopConfig) (ticks : List TickInput) :
    ∀ st : LoopState, Event.writeHeader ∉ (loop cfg st ticks).1 := by
  induction ticks with
  | nil => intro st; simp [loop]
  | cons t ts ih =>
    intro st
    have ht := tick_no_header cfg st t
    rcases htick : tick cfg st t with ⟨c, r⟩
    rw [htick] at ht
    cases r with
    | error term =>
      rw [loop_cons_error cfg st t ts c term htick]
      exact ht
    | ok s1 =>
      rw [loop_cons_ok cfg st s1 t ts c htick]
      simp only [List.mem_append, not_or]
      exact ⟨ht, ih s1⟩

/-- A set-up that stops before line 203 ends the program with `exit(1)` and has called
neither the header write nor a packet write. -/
theorem setup_unreached (env : InitEnv) (h : ¬ reachesHeader env) :
    (setup env).2 = some (.exit 1) ∧ Event.writeHeader ∉ (setup env).1 ∧
    Event.writePacket ∉ (setup env).1 := by
  unfold reachesHeader at h
  by_cases h1 : env.cam1Opened = true
  swap
  · simp [setup, andThen, get_stream_device, initialize_avformat_context,
      initialize_io_context, initialize_codec_stream, initialize_sample_scaler,
      write_header, h1]
  by_cases h2 : env.cam2Opened = true
  swap
  · simp [setup, andThen, get_stream_device, initialize_avformat_context,
      initialize_io_context, initialize_codec_stream, initialize_sample_scaler,
      write_header, h1, h2]
  by_cases h3 : env.allocContextRet < 0
  · simp [setup, andThen, get_stream_device, initialize_avformat_context,
      initialize_io_context, initialize_codec_stream, initialize_sample_scaler,
      write_header, h1, h2, h3]
  by_cases hno : (env.oformatFlags &&& AVFMT_NOFILE) = 0
  · by_cases h4 : env.avioOpenRet < 0
    · simp [setup, andThen, get_stream_device, initialize_avformat_context,
        initialize_io_context, initialize_codec_stream, initialize_sample_scaler,
        write_header, h1, h2, h3, hno, h4]
    by_cases h5 : env.parametersRet < 0
    · simp [setup, andThen, get_stream_device, initialize_avformat_context,
        initialize_io_context, initialize_codec_stream, initialize_sample_scaler,
        write_header, h1, h2, h3, hno, h4, h5]
    by_cases h6 : env.encoderOpenRet < 0
    · simp [setup, andThen, get_stream_device, initialize_avformat_context,
        initialize_io_context, initialize_codec_stream, initialize_sample_scaler,
        write_header, h1, h2, h3, hno, h4, h5, h6]
    by_cases h7 : env.scalerAllocated = true
    swap
    · simp [setup, andThen, get_stream_device, initialize_avformat_context,
        initialize_io_context, initialize_codec_stream, initialize_sample_scaler,
        write_header, h1, h2, h3, hno, h4, h5, h6, h7]
    exact absurd ⟨h1, h2, by omega, fun _ => by omega, by omega, by omega, h7⟩ h
  · by_cases h5 : env.parametersRet < 0
    · simp [setup, andThen, get_stream_device, initialize_avformat_context,
        initialize_io_context, initialize_codec_stream, initialize_sample_scaler,
        write_header, h1, h2, h3, hno, h5]
    by_cases h6 : env.encoderOpenRet < 0
    · simp [setup, andThen, get_stream_device, initialize_avformat_context,
        initialize_io_context, initialize_codec_stream, initialize_sample_scaler,
        write_header, h1, h2, h3, hno, h5, h6]
    by_cases h7 : env.scalerAllocated = true
    swap
    · simp [setup, andThen, get_stream_device, initialize_avformat_context,
        initialize_io_context, initialize_codec_stream, initialize_sample_scaler,
        write_header, h1, h2, h3, hno, h5, h6, h7]
    exact absurd ⟨h1, h2, by omega, fun h0 => absurd h0 hno, by omega, by omega, h7⟩ h

/-- A set-up that gets to line 203 has created the stream and filled its parameters,
has written no header and no packet so far, calls the header write once and goes on to
the loop exactly when that call succeeds. -/
theorem setup_reached (env : InitEnv) (h : reachesHeader env) :
    ∃ pre, Event.newStream ∈ pre ∧ Event.parametersFromContext ∈ pre ∧
      Event.writeHeader ∉ pre ∧ Event.writePacket ∉ pre ∧
      setup env = if env.writeHeaderRet < 0
        then (pre ++ [.writeHeader, .print .headerFailed], some (.exit 1))
        else (pre ++ [.writeHeader], none) := by
  obtain ⟨h1, h2, h3, h4, h5, h6, h7⟩ := h
  have h3' : ¬ env.allocContextRet < 0 := by omega
  have h5' : ¬ env.parametersRet < 0 := by omega
  have h6' : ¬ env.encoderOpenRet < 0 := by omega
  by_cases hno : (env.oformatFlags &&& AVFMT_NOFILE) = 0
  · have h4' : ¬ env.avioOpenRet < 0 := by have := h4 hno; omega
    refine ⟨[.captureOpen 1, .captureOpen 2, .allocOutputContext, .ioOpen, .newStream,
      .parametersFromContext, .encoderOpen, .getScaler], by simp, by simp, by simp,
      by simp, ?_⟩
    by_cases h8 : env.writeHeaderRet < 0
    · simp [setup, andThen, get_stream_device, initialize_avformat_context,
        initialize_io_context, initialize_codec_stream, initialize_sample_scaler,
        write_header, h1, h2, h3', hno, h4', h5', h6', h7, h8]
    · simp [setup, andThen, get_stream_device, initialize_avformat_context,
        initialize_io_context, initialize_codec_stream, initialize_sample_scaler,
        write_header, h1, h2, h3', hno, h4', h5', h6', h7, h8]
  · refine ⟨[.captureOpen 1, .captureOpen 2, .allocOutputContext, .newStream,
      .parametersFromContext, .encoderOpen, .getScaler], by simp, by simp, by simp,
      by simp, ?_⟩
    by_cases h8 : env.writeHeaderRet < 0
    · simp [setup, andThen, get_stream_device, initialize_avformat_context,
        initialize_io_context, initialize_codec_stream, initialize_sample_scaler,
        write_header, h1, h2, h3', hno, h5', h6', h7, h8]
    · simp [setup, andThen, get_stream_device, initialize_avformat_context,
        initialize_io_context, initialize_codec_stream, initialize_sample_scaler,
        write_header, h1, h2, h3', hno, h5', h6', h7, h8]

/-- Shape of every trace of `stream_video`: either the set-up stops before the header
write and the program exits with neither header nor packet written, or the trace
splits at its only header write, with the stream declared before it. -/
theorem stream_video_shape (W H : Nat) (fps bitrate : Int) (env : InitEnv)
    (ticks : List TickInput) :
    (¬ reachesHeader env ∧
      Event.writeHeader ∉ (stream_video W H fps bitrate env ticks).1 ∧
      Event.writePacket ∉ (stream_video W H fps bitrate env ticks).1 ∧
      (stream_video W H fps bitrate env ticks).2 = .error (.exit 1)) ∨
    (reachesHeader env ∧ ∃ pre post,
      (stream_video W H fps bitrate env ticks).1 = pre ++ Event.writeHeader :: post ∧
      Event.newStream ∈ pre ∧ Event.parametersFromContext ∈ pre ∧
      Event.writeHeader ∉ pre ∧ Event.writePacket ∉ pre ∧ Event.writeHeader ∉ post ∧
      (env.writeHeaderRet < 0 → Event.writePacket ∉ post ∧
        (stream_video W H fps bitrate env ticks).2 = .error (.exit 1))) := by
  by_cases hr : reachesHeader env
  · right
    obtain ⟨pre, hn, hp, hh, hw, hsetup⟩ := setup_reached env hr
    by_cases h8 : env.writeHeaderRet < 0
    · rw [if_pos h8] at hsetup
      refine ⟨hr, pre, [.print .headerFailed], ?_, hn, hp, hh, hw, by simp, fun _ => ?_⟩
      · simp [stream_video, hsetup]
      · simp [stream_video, hsetup]
    · rw [if_neg h8] at hsetup
      refine ⟨hr, pre,
        (loop (loopConfig W H fps
            (set_codec_params env.oformatFlags env.codecCtx0 W H fps bitrate)
            env.streamTimeBase)
          { imgbuf := List.replicate (imgbufSize W H) 0, pts := env.framePts0 } ticks).1,
        ?_, hn, hp, hh, hw, loop_no_header _ ticks _, fun h => absurd h h8⟩
      simp only [stream_video, hsetup, List.append_assoc, List.singleton_append]
  · left
    obtain ⟨hexit, hh, hw⟩ := setup_unreached env hr
    rcases hs : setup env with ⟨calls, term⟩
    rw [hs] at hexit hh hw
    simp only at hexit
    subst hexit
    exact ⟨hr, by simp [stream_video, hs, hh], by simp [stream_video, hs, hw],
      by simp [stream_video, hs]⟩

/-- Counterexample to C7 as stated: when the first source does not open, the program
exits before line 203 and the trace holds no header write at all, not exactly one. -/
theorem mux_ordering_counterexample :
    (stream_video 2560 720 30 300000 { goodEnv with cam1Opened := false }
      [solidTick 720 1280]).1.count .writeHeader = 0 ∧
    (stream_video 2560 720 30 300000 { goodEnv with cam1Opened := false }
      [solidTick 720 1280]).2 = .error (.exit 1) :=
  ⟨by decide, rfl⟩

/-- C7, amended: in every execution trace of `stream_video` the container header is
written at most once, and exactly once precisely when the set-up gets as far as the
header write (every earlier set-up call succeeded); the header write comes after the
stream was created and its codec parameters were filled from the encoder context, and
before any packet write; if the header write fails, no packet is ever written and the
program terminates with exit code 1. -/
theorem mux_ordering (W H : Nat) (fps bitrate : Int) (env : InitEnv)
    (ticks : List TickInput) :
    (stream_video W H fps bitrate env ticks).1.count .writeHeader ≤ 1 ∧
    ((stream_video W H fps bitrate env ticks).1.count .writeHeader = 1 ↔
      reachesHeader env) ∧
    (∀ pre post, (stream_video W H fps bitrate env ticks).1
        = pre ++ Event.writeHeader :: post →
      Event.newStream ∈ pre ∧ Event.parametersFromContext ∈ pre ∧
      Event.writePacket ∉ pre) ∧
    (∀ pre post, (stream_video W H fps bitrate env ticks).1
        = pre ++ Event.writePacket :: post → Event.writeHeader ∈ pre) ∧
    (env.writeHeaderRet < 0 →
      Event.writePacket ∉ (stream_video W H fps bitrate env ticks).1 ∧
      (stream_video W H fps bitrate env ticks).2 = .error (.exit 1)) := by
  rcases stream_video_shape W H fps bitrate env ticks with
    ⟨hr, hh, hw, hexit⟩ | ⟨hr, pre, post, htr, hn, hp, hh, hw, hpost, hfail⟩
  · have hcount := List.count_eq_zero_of_not_mem hh
    refine ⟨by omega, ⟨fun h => by omega, fun h => absurd h hr⟩, ?_, ?_, fun _ => ⟨hw, hexit⟩⟩
    · intro p q hpq
      exact absurd (by rw [hpq]; simp) hh
    · intro p q hpq
      exact absurd (by rw [hpq]; simp) hw
  · have hcount : (stream_video W H fps bitrate env ticks).1.count .writeHeader = 1 := by
      rw [htr, List.count_append, List.count_cons, List.count_eq_zero_of_not_mem hh,
        List.count_eq_zero_of_not_mem hpost]
      simp
    refine ⟨by omega, ⟨fun _ => hr, fun _ => hcount⟩, ?_, ?_, ?_⟩
    · intro p q hpq
      rw [htr] at hpq
      obtain ⟨hpre, _, _⟩ := (List.append_cons_inj_of_not_mem hh hpost).1 hpq
      subst hpre
      exact ⟨hn, hp, hw⟩
    · intro p q hpq
      rw [htr] at hpq
      rcases List.append_eq_append_iff.1 hpq with ⟨a, hpa, ha⟩ | ⟨c, hpc, hc⟩
      · rcases List.cons_eq_append_iff.1 ha with ⟨_, h2⟩ | ⟨a2, ha2, _⟩
        · simp at h2
        · rw [hpa, ha2]
          simp
      · rcases List.cons_eq_append_iff.1 hc with ⟨_, h2⟩ | ⟨c2, hc2, _⟩
        · simp at h2
        · exact absurd (by rw [hpc, hc2]; simp) hw
    · intro h8
      obtain ⟨hwp, hexit⟩ := hfail h8
      refine ⟨?_, hexit⟩
      rw [htr]
      simp [hw, hwp]

/-- Witness of the amended C7: every set-up call succeeds but the header write, which
returns `-5`; no packet is written although a tick is on offer, and the program exits
with code 1. -/
theorem mux_ordering_witness :
    Event.writePacket ∉ (stream_video 2 1 30 300000 { goodEnv with writeHeaderRet := -5 }
      [solidTick 1 1]).1 ∧
    (stream_video 2 1 30 300000 { goodEnv with writeHeaderRet := -5 }
      [solidTick 1 1]).2 = .error (.exit 1) :=
  (mux_ordering 2 1 30 300000 { goodEnv with writeHeaderRet := -5 }
    [solidTick 1 1]).2.2.2.2 (by decide)

end RtmpStream
